import Mathlib

/-!
Verification of the livesplit-core auto-splitting runtime.

A shallow embedding, in Lean 4, of the auto-splitting subsystem of
livesplit-core:

* `crates/livesplit-auto-splitting/src/runtime.rs` — the WASM host
  bindings registered by `Runtime::new`, plus `Runtime::step` and
  `Runtime::sleep`;
* `crates/livesplit-auto-splitting/src/environment.rs` — the alternative
  `Environment` draft of the bindings (notably `Environment::read_into_buf`
  and `Environment::new`);
* `crates/livesplit-auto-splitting/src/process/windows.rs` —
  `Process::with_name` (selection among processes of equal name);
* `src/auto_splitting/mod.rs` — the event loop of the controller thread.

Modelling conventions:

* Rust `Duration` values are modelled as exact non-negative rationals
  (seconds).  `f64` values are modelled by `F64` below: NaN, signed
  infinities, and signed finite values with an exact rational magnitude.
  Binary floating-point rounding is abstracted away (it is far below the
  granularity of every property considered here: 1/60 vs 1/120,
  zero vs negative, finite vs non-finite).
* WASM linear memory is a `List Nat` of bytes.  All modules considered
  export their memory, so the "failed to find host memory" trap of
  `get_memory` is not modelled.
* The `Timer` trait object held by the guest context is modelled as the
  trace of adapter calls made through it (`TimerEvent` list); "invoking
  the timer adapter" is appending to the trace.
* OS effects (process enumeration, cross-process reads, pid → platform
  handle conversion) are passed in as explicit arguments, mirroring the
  fact that the Rust code obtains them from `sysinfo` /
  `read_process_memory` at each call.
* Error strings are abbreviated constants (the Rust messages interpolate
  values and contain characters we do not reproduce); which branch fails
  is modelled exactly, the text is not.
* Rust panics (as opposed to `wasmtime::Trap`s) are modelled by `Option`
  results: `none` means the host function panicked, which kills the
  runtime thread; `Except.error` means a guest trap.
-/

set_option autoImplicit false

namespace LiveSplit

/-! ## slotmap: `KeyData` and `SlotMap`

Model of the `slotmap` crate as used by `runtime.rs` (`SlotMap<ProcessKey,
ProcessHandle>`).  A key is an index plus an odd version; the null key is
`(idx = u32::MAX, version = 1)`.  `as_ffi` packs `(version << 32) | idx`,
which for `idx < 2^32` equals `version * 2^32 + idx`; `from_ffi` unpacks
and forces the version odd (`| 1`).  Versions in my model are plain `Nat`
(the crate uses `u32` and never lets a map reach `u32::MAX` live slots;
the well-formedness predicate `SlotMap.WF` captures the in-range states).
-/

/-- Rust `x | 1`: force the lowest bit set. -/
def orOne (x : Nat) : Nat := if x % 2 = 1 then x else x + 1

structure KeyData where
  idx : Nat
  version : Nat
  deriving DecidableEq, Repr

/-- Model of `KeyData::null()`: `idx = u32::MAX`, `version = 1`. -/
def KeyData.null : KeyData := ⟨2 ^ 32 - 1, 1⟩

/-- Model of `KeyData::as_ffi`: `(version << 32) | idx`; for `idx < 2^32` this is
`version * 2^32 + idx`, which is the form we use. -/
def KeyData.asFfi (k : KeyData) : Nat := k.version * 2 ^ 32 + k.idx

/-- Model of `KeyData::from_ffi`: `idx = value & 0xffff_ffff`,
`version = ((value >> 32) as u32) | 1`. -/
def KeyData.fromFfi (v : Nat) : KeyData := ⟨v % 2 ^ 32, orOne (v / 2 ^ 32 % 2 ^ 32)⟩

/-- One slot of a `SlotMap`: occupied iff the version is odd.  In Rust the
value and the free-list link share a union; here we keep both fields. -/
structure Slot (α : Type) where
  version : Nat
  value : Option α
  nextFree : Nat
  deriving DecidableEq, Repr

structure SlotMap (α : Type) where
  slots : List (Slot α)
  freeHead : Nat
  deriving DecidableEq, Repr

namespace SlotMap

variable {α : Type}

/-- Model of `SlotMap::with_key()`: one sentinel slot at index 0, free head 1. -/
def empty : SlotMap α := ⟨[⟨0, none, 0⟩], 1⟩

/-- Model of `SlotMap::insert`: reoccupy the slot at the free head (version `| 1`)
or, when the free head points past the end, push a fresh slot with
version 1. -/
def insert (m : SlotMap α) (v : α) : KeyData × SlotMap α :=
  match m.slots.get? m.freeHead with
  | some s =>
    let ver := orOne s.version
    (⟨m.freeHead, ver⟩,
      ⟨m.slots.set m.freeHead ⟨ver, some v, s.nextFree⟩, s.nextFree⟩)
  | none =>
    (⟨m.slots.length, 1⟩,
      ⟨m.slots ++ [⟨1, some v, m.slots.length + 1⟩], m.slots.length + 1⟩)

/-- Model of `SlotMap::get`: the slot at `k.idx` whose version equals `k.version`
(free slots have even versions, keys odd ones, so a version match implies
occupancy). -/
def get (m : SlotMap α) (k : KeyData) : Option α :=
  match m.slots.get? k.idx with
  | some s => if s.version = k.version then s.value else none
  | none => none

/-- Model of `SlotMap::remove`: on a version match, bump the version (making it
even) and push the slot onto the free list; otherwise return `none`. -/
def remove (m : SlotMap α) (k : KeyData) : Option α × SlotMap α :=
  match m.slots.get? k.idx with
  | some s =>
    if s.version = k.version then
      (s.value, ⟨m.slots.set k.idx ⟨s.version + 1, none, m.freeHead⟩, k.idx⟩)
    else (none, m)
  | none => (none, m)

/-- In-range states: the crate stores indices and versions in `u32` and
panics before a map can reach `u32::MAX` live slots, so live states keep
every index strictly below `u32::MAX` and every version below `2^32`. -/
def WF (m : SlotMap α) : Prop :=
  m.slots.length < 2 ^ 32 - 1 ∧ ∀ s ∈ m.slots, s.version < 2 ^ 32 - 1

end SlotMap

/-! ## `f64` and `Duration::from_secs_f64` -/

/-- Model of an `f64`: NaN, a signed infinity, or a signed finite value
with exact rational magnitude (`mag` is meant non-negative; `neg = true`
with `mag = 0` is `-0.0`). -/
inductive F64 where
  | nan
  | inf (neg : Bool)
  | finite (neg : Bool) (mag : ℚ)
  deriving DecidableEq, Repr

/-- Model of `f64::recip` (rounding abstracted). `(±0.0)⁻¹ = ±∞`,
`(±∞)⁻¹ = ±0.0`, NaN stays NaN. -/
def F64.recip : F64 → F64
  | .nan => .nan
  | .inf neg => .finite neg 0
  | .finite neg mag => if mag = 0 then .inf neg else .finite neg (1 / mag)

/-- Bound used by `Duration::from_secs_f64`: it rejects any seconds value at or above
`(u64::MAX + 1)` seconds (`MAX_NANOS_F64` nanoseconds). -/
def durationMaxSecs : ℚ := 2 ^ 64

/-- Model of `Duration::from_secs_f64`, which panics (`none`) on NaN, infinities,
negative values and overflow, and otherwise (`some`) yields the duration
in seconds.  `-0.0` does not panic: the check is `nanos < 0.0`, which is
false for `-0.0`. -/
def durationFromSecsF64 : F64 → Option ℚ
  | .nan => none
  | .inf _ => none
  | .finite neg mag =>
    if neg = true ∧ 0 < mag then none
    else if durationMaxSecs ≤ mag then none
    else some mag

/-! ## Guest context and timer adapter trace -/

/-- One call on the `Timer` trait object (the adapter the embedder
provides).  The `timer: T` field of the context is modelled by the trace of
these calls. -/
inductive TimerEvent where
  | start
  | split
  | reset
  | setGameTime (secs : ℚ)
  | pauseGameTime
  | resumeGameTime
  deriving DecidableEq, Repr

/-- A process the OS reports: pid, executable name, creation (start)
time.  The process table of `sysinfo`, flattened to its enumeration order. -/
structure ProcInfo where
  pid : Nat
  name : String
  startTime : Nat
  deriving DecidableEq, Repr

/-- Model of `Context<T>` from `runtime.rs`: the tick rate, the process registry,
and the timer (as its call trace).  The `info: System` field is the OS
process table; since `attach` refreshes it wholesale before reading it,
it is passed to `attach` as an argument instead of being stored. -/
structure Context where
  tickRate : ℚ
  processes : SlotMap Nat
  timerEvents : List TimerEvent
  deriving DecidableEq, Repr

/-- The context `Runtime::new` builds:
`tick_rate: Duration::from_secs_f64(1.0 / 120.0)`, an empty slot map, and
the timer of the embedder (an empty trace). -/
def initialContext : Context :=
  { tickRate := 1 / 120
    processes := SlotMap.empty
    timerEvents := [] }

/-! ## String matching of `sysinfo::SystemExt::process_by_name`

`process_by_name` keeps the processes whose name *contains* the query
(`str::contains`), in table enumeration order. -/

/-- Char-list prefix test (`==` on chars). -/
def startsWith : List Char → List Char → Bool
  | [], _ => true
  | _ :: _, [] => false
  | a :: as, b :: bs => a == b && startsWith as bs

/-- Whether `needle` occurs as a contiguous subsequence of the second list. -/
def containsSeq (needle : List Char) : List Char → Bool
  | [] => startsWith needle []
  | c :: rest => startsWith needle (c :: rest) || containsSeq needle rest

/-- Test `p.name().contains(process_name)` as used by `process_by_name`. -/
def processNameMatches (p : ProcInfo) (query : String) : Bool :=
  containsSeq query.data p.name.data

/-! ## Host ABI bindings of `runtime.rs` (the closures in `Runtime::new`)

Each binding is embedded from the point where its string arguments have
been decoded from linear memory (`read_str` validates bounds and UTF-8;
no claim here concerns that validation).  Traps are `Except.error`. -/

/-- Trap message of an unknown process token (the Rust message
interpolates the token; we keep a constant). -/
def invalidHandleMsg : String := "Invalid process handle."

/-- Trap message of an out-of-bounds buffer. -/
def oobMsg : String := "Index out of bounds"

/-- Trap message produced by `trap_from_err` for a failed target-process
read (the Rust message is the OS error rendered as a string). -/
def readFailedMsg : String := "read failed"

/-- The `start` binding: `caller.data_mut().timer.start()`. -/
def startBinding (ctx : Context) : Context :=
  { ctx with timerEvents := ctx.timerEvents ++ [.start] }

/-- The `split` binding. -/
def splitBinding (ctx : Context) : Context :=
  { ctx with timerEvents := ctx.timerEvents ++ [.split] }

/-- The `reset` binding. -/
def resetBinding (ctx : Context) : Context :=
  { ctx with timerEvents := ctx.timerEvents ++ [.reset] }

/-- The `attach` binding (`runtime.rs` lines 61–85), after the process
name has been decoded.  `procs` is the refreshed OS process table in
enumeration order; `pidToHandle` is `pid.as_u32().try_into()`, the
conversion of a pid to a `read_process_memory::ProcessHandle` (fallible).
`process_by_name` filters by name containment and `.pop()` takes the
*last* element of the filtered vector; there is no selection by creation
time (the source carries a `TODO` for the multiple-match case).  Returns
the FFI value of the key and the updated context. -/
def attach (pidToHandle : Nat → Option Nat) (ctx : Context)
    (processName : String) (procs : List ProcInfo) : Nat × Context :=
  let matching := procs.filter (fun p => processNameMatches p processName)
  match matching.getLast? with
  | some p =>
    match pidToHandle p.pid with
    | some handle =>
      let inserted := ctx.processes.insert handle
      (inserted.1.asFfi, { ctx with processes := inserted.2 })
    | none => (KeyData.null.asFfi, ctx)
  | none => (KeyData.null.asFfi, ctx)

/-- The `detach` binding: remove the key; trap if it was not present. -/
def detach (ctx : Context) (process : Nat) : Except String Context :=
  let k := KeyData.fromFfi process
  match ctx.processes.remove k with
  | (some _, m) => .ok { ctx with processes := m }
  | (none, _) => .error invalidHandleMsg

/-- Overwrite `count` bytes of `mem` starting at `ptr` with `bytes`
(callers pass `bytes` of length `count`; `copy_address` fills the whole
slice or fails). -/
def writeBytes (mem : List Nat) (ptr : Nat) (bytes : List Nat) : List Nat :=
  mem.take ptr ++ bytes ++ mem.drop (ptr + bytes.length)

/-- The `read_into_buf` binding (`runtime.rs` lines 95–118).  `osRead
handle address len` models `handle.copy_address`; `none` is an OS read
failure.  Source order: resolve the key, resolve the memory, look up the
handle (trap when invalid), take the slice (trap when out of bounds),
read (a failure is mapped by `trap_from_err` into a **trap**, and the
wasm signature of the binding returns nothing). -/
def readIntoBuf (osRead : Nat → Nat → Nat → Option (List Nat))
    (ctx : Context) (mem : List Nat) (process address bufPtr bufLen : Nat) :
    Except String (Context × List Nat) :=
  let k := KeyData.fromFfi process
  match ctx.processes.get k with
  | none => .error invalidHandleMsg
  | some handle =>
    if bufPtr + bufLen ≤ mem.length then
      match osRead handle address bufLen with
      | some bytes => .ok (ctx, writeBytes mem bufPtr (bytes.take bufLen))
      | none => .error readFailedMsg
    else .error oobMsg

/-- The `set_tick_rate` binding:
`tick_rate = Duration::from_secs_f64(ticks_per_sec.recip())`, with **no**
validation and no `catch_unwind` — when `from_secs_f64` panics (rate NaN,
`recip` non-finite or negative) the panic escapes the host function
(`none`): that is a host-side panic that kills the runtime thread, not a
`wasmtime::Trap`. -/
def setTickRate (ctx : Context) (ticksPerSec : F64) : Option Context :=
  match durationFromSecsF64 ticksPerSec.recip with
  | some d => some { ctx with tickRate := d }
  | none => none

/-- Trap message of `set_game_time` on a rejected float (the Rust message
interpolates the value). -/
def badGameTimeMsg : String := "Could not instantiate a Duration with the given float value"

/-- The `set_game_time` binding: `catch_unwind(|| Duration::from_secs_f64
(secs))`, a panic becoming a trap *before* the timer adapter is invoked;
on success the duration is forwarded to `timer.set_game_time`. -/
def setGameTime (ctx : Context) (secs : F64) : Except String Context :=
  match durationFromSecsF64 secs with
  | some d => .ok { ctx with timerEvents := ctx.timerEvents ++ [.setGameTime d] }
  | none => .error badGameTimeMsg

/-! ## The `Environment` draft (`environment.rs`)

An alternative, currently unused, version of the bindings.  We embed the
parts cited by the claims: `Environment::new` (tick rate default) and
`Environment::read_into_buf`, which *returns a status word*
(`res.is_ok() as i32`) instead of trapping on a failed read. -/

structure Environment where
  memory : Option (List Nat)
  processes : SlotMap Nat
  tickRate : ℚ
  timerEvents : List TimerEvent
  deriving DecidableEq, Repr

/-- Model of `Environment::new`: `tick_rate: Duration::from_secs(1) / 60`. -/
def Environment.new : Environment :=
  { memory := none
    processes := SlotMap.empty
    tickRate := 1 / 60
    timerEvents := [] }

/-- Model of `Environment::read_into_buf`: look the process up (trap when
invalid), slice the memory (trap when absent or out of bounds), read, and
return `1` on success, `0` on a failed read — never trapping on the read
itself.  The resulting status word and the environment (whose memory we
leave unchanged on failure) are returned. -/
def Environment.readIntoBuf (osRead : Nat → Nat → Nat → Option (List Nat))
    (env : Environment) (process address bufPtr bufLen : Nat) :
    Except String (Nat × Environment) :=
  let k := KeyData.fromFfi process
  match env.processes.get k with
  | none => .error invalidHandleMsg
  | some handle =>
    match env.memory with
    | none => .error "There is no memory to use"
    | some mem =>
      if bufPtr + bufLen ≤ mem.length then
        match osRead handle address bufLen with
        | some bytes =>
          .ok (1, { env with memory := some (writeBytes mem bufPtr (bytes.take bufLen)) })
        | none => .ok (0, env)
      else .error oobMsg

/-! ## `Process::with_name` (`process/windows.rs`)

The Windows platform layer walks the toolhelp snapshot and keeps, among
the entries whose `szExeFile` equals the requested name and whose process
could be opened and queried for times, the one with the **greatest**
creation time (`time > oldest` keeps the strictly greater, so ties keep
the earlier entry).  This is the only place in the repository that
implements the most-recent-start-time selection; the live `attach`
binding above does not use it. -/

/-- One `PROCESSENTRY32W` as `with_name` sees it: pid, executable name,
and `some creationTime` when `OpenProcess` + `GetProcessTimes` succeed. -/
structure WinProcEntry where
  pid : Nat
  name : String
  creation : Option Nat
  deriving DecidableEq, Repr

/-- The `best_process` accumulator update of one loop iteration. -/
def withNameUpdate (query : String) (best : Option (Nat × Nat))
    (e : WinProcEntry) : Option (Nat × Nat) :=
  if e.name = query then
    match e.creation with
    | some t =>
      match best with
      | none => some (e.pid, t)
      | some (_, oldest) => if oldest < t then some (e.pid, t) else best
    | none => best
  else best

/-- Selection loop of `Process::with_name`: fold `withNameUpdate` over the
snapshot, yielding the chosen `(pid, creationTime)` (the function then
opens that pid; `none` means `ProcessDoesntExist`). -/
def withNameBest (query : String) (entries : List WinProcEntry) :
    Option (Nat × Nat) :=
  entries.foldl (withNameUpdate query) none

/-! ## Module runtime (`Runtime` of `runtime.rs`) -/

/-- A guest export of type `() → ()`: its effect on the host context,
trapping with a message or succeeding with the mutated context. -/
def GuestFunc := Context → Except String Context

/-- What the host sees of a guest module: whether `Module::new` +
`linker.instantiate` succeed (wasm validity, import signatures), and the
behaviours of the exported `configure` and `update` functions (absent
export = `none`). -/
structure ModuleDesc where
  instantiates : Bool
  configureFn : Option GuestFunc
  updateFn : Option GuestFunc

/-- Model of `Runtime<T>`: the context of the store, the one-shot configured flag, the
resolved exports, and `prev_time` (an instant, modelled as a rational
timestamp). -/
structure ScriptRuntime where
  ctx : Context
  isConfigured : Bool
  configureFn : Option GuestFunc
  updateFn : Option GuestFunc
  prevTime : ℚ

/-- Model of `Runtime::new`: engine/module/instantiation failures give `Err`
(`none` here); on success the context starts from `initialContext`
(tick rate 1/120 s), `is_configured: false`, `update` resolved via
`get_typed_func("update").ok()` and `prev_time: Instant::now()`.
`configure` is **not** looked up here — only `step` does that. -/
def RuntimeNew (m : ModuleDesc) (now : ℚ) : Option ScriptRuntime :=
  if m.instantiates then
    some { ctx := initialContext
           isConfigured := false
           configureFn := m.configureFn
           updateFn := m.updateFn
           prevTime := now }
  else none

/-- Error message of `Runtime::step` when the module has no `configure`
export (source text, minus the quoting). -/
def configureMissingMsg : String := "did not expose a configure function"

/-- Model of `Runtime::run_script`: call `update` if present, else a no-op. -/
def ScriptRuntime.runScript (rt : ScriptRuntime) : Except String ScriptRuntime :=
  match rt.updateFn with
  | some f =>
    match f rt.ctx with
    | .ok c => .ok { rt with ctx := c }
    | .error e => .error e
  | none => .ok rt

/-- Model of `Runtime::step`: on the first call resolve and run `configure`
(erroring when it is absent or traps; the configured flag is set only
after a successful call), then `run_script`. -/
def ScriptRuntime.step (rt : ScriptRuntime) : Except String ScriptRuntime :=
  if rt.isConfigured then rt.runScript
  else
    match rt.configureFn with
    | none => .error configureMissingMsg
    | some f =>
      match f rt.ctx with
      | .error e => .error e
      | .ok c => ScriptRuntime.runScript { rt with ctx := c, isConfigured := true }

/-- Model of `Runtime::sleep`: with `delta = prev_time.elapsed()` (the time since
the last reference point, taken at entry instant `now`), block for
`target - delta` when `delta < target`, else not at all, then set
`prev_time` to the instant after sleeping.  Idealisation: the sleep lasts
exactly its argument and no time passes between the surrounding
operations, so the exit instant is `now + slept`.  Returns the slept
duration and the updated runtime. -/
def ScriptRuntime.sleep (rt : ScriptRuntime) (now : ℚ) : ℚ × ScriptRuntime :=
  let target := rt.ctx.tickRate
  let delta := now - rt.prevTime
  let slept := if delta < target then target - delta else 0
  (slept, { rt with prevTime := now + slept })

/-! ## Controller (`src/auto_splitting/mod.rs`) -/

/-- A request on the controller channel. -/
inductive Request where
  | loadScript (m : ModuleDesc)
  | unloadScript
  | endReq

/-- Observable outputs of one controller iteration: replies on the
one-shot channels and log lines, in emission order. -/
inductive COut where
  | replyLoadOk
  | replyLoadFailed
  | replyUnloadOk
  | logAttemptedUnloadIdle
  | logLoaded
  | logReloaded
  | logUnloaded
  | logUnloadFailure (e : String)

/-- Phase of the controller: blocked in the idle `recv` loop, running a
script, or exited. -/
inductive CPhase where
  | idle
  | running (rt : ScriptRuntime)
  | stopped

/-- One iteration of the **idle** phase (`mod.rs` lines 54–71): a blocking
`recv`, then: `LoadScript` constructs the runtime (reply `Ok` and move to
running — the `Loaded script` log is emitted right after the `break` —
or reply `Err(LoadFailed)` and stay idle); `UnloadScript` warns and
replies; `End` exits. -/
def idleStep (req : Request) (now : ℚ) : CPhase × List COut :=
  match req with
  | .loadScript m =>
    match RuntimeNew m now with
    | some rt => (.running rt, [.replyLoadOk, .logLoaded])
    | none => (.idle, [.replyLoadFailed])
  | .unloadScript => (.idle, [.logAttemptedUnloadIdle, .replyUnloadOk])
  | .endReq => (.stopped, [])

/-- The tail of a running-phase iteration (`mod.rs` lines 98–102):
`runtime.step()`; on error log `Unloaded due to failure` and return to
idle (dropping the runtime), else `runtime.sleep()`. -/
def stepAndSleep (rt : ScriptRuntime) (now : ℚ) : CPhase × List COut :=
  match rt.step with
  | .error e => (.idle, [.logUnloadFailure e])
  | .ok stepped => (.running (stepped.sleep now).2, [])

/-- One iteration of the **running** phase (`mod.rs` lines 73–103): a
non-blocking poll (`req`), then the step/sleep tail.  A polled
`LoadScript` replaces the runtime when construction succeeds and only
replies `Err(LoadFailed)` when it fails — the current runtime is kept and
stepped either way, and `Reloaded script` is logged in both cases.
`UnloadScript` logs, replies and returns to idle without stepping;
`End` exits. -/
def runningStep (rt : ScriptRuntime) (req : Option Request) (now : ℚ) :
    CPhase × List COut :=
  match req with
  | none => stepAndSleep rt now
  | some (.loadScript m) =>
    match RuntimeNew m now with
    | some fresh =>
      let tail := stepAndSleep fresh now
      (tail.1, .replyLoadOk :: .logReloaded :: tail.2)
    | none =>
      let tail := stepAndSleep rt now
      (tail.1, .replyLoadFailed :: .logReloaded :: tail.2)
  | some .unloadScript => (.idle, [.logUnloaded, .replyUnloadOk])
  | some .endReq => (.stopped, [])

/-! ## Concrete fixtures used by witnesses and counterexamples -/

/-- A guest function that does nothing. -/
def guestNopFn : GuestFunc := fun c => .ok c

/-- A well-formed module exporting `configure` (a no-op) and no `update`. -/
def modGood : ModuleDesc := ⟨true, some guestNopFn, none⟩

/-- A module whose bytes are rejected by `Module::new`/instantiation. -/
def modBad : ModuleDesc := ⟨false, none, none⟩

/-- A module that instantiates but exports no `configure`. -/
def modNoConfigure : ModuleDesc := ⟨true, none, none⟩

/-- The runtime `Runtime::new` builds for `modGood` at time 0. -/
def rtGood : ScriptRuntime :=
  { ctx := initialContext
    isConfigured := false
    configureFn := some guestNopFn
    updateFn := none
    prevTime := 0 }

/-- The runtime `Runtime::new` builds for `modNoConfigure` at time 0. -/
def rtNoConfigure : ScriptRuntime :=
  { ctx := initialContext
    isConfigured := false
    configureFn := none
    updateFn := none
    prevTime := 0 }

/-- An OS read that always fails. -/
def failingRead : Nat → Nat → Nat → Option (List Nat) := fun _ _ _ => none

/-- A context holding one attached process (platform handle 7); its token
is `0x1_0000_0001` (slot 1, version 1). -/
def attachedCtx : Context :=
  { tickRate := 1 / 120
    processes := ((SlotMap.empty (α := Nat)).insert 7).2
    timerEvents := [] }

/-- Eight bytes of guest memory. -/
def mem8 : List Nat := List.replicate 8 0

/-- An `Environment` holding the same attached process and memory. -/
def env1 : Environment :=
  { memory := some mem8
    processes := ((SlotMap.empty (α := Nat)).insert 7).2
    tickRate := 1 / 60
    timerEvents := [] }

/-- Two running processes named `game`; the first started later (creation
time 100) than the second (creation time 50). -/
def procNewer : ProcInfo := ⟨1, "game", 100⟩

/-- See `procNewer`. -/
def procOlder : ProcInfo := ⟨2, "game", 50⟩

/-! ## Supporting lemmas on `orOne`, `KeyData` and `SlotMap` -/

theorem orOne_odd (x : Nat) : orOne x % 2 = 1 := by
  unfold orOne; split <;> omega

theorem orOne_le (x : Nat) : orOne x ≤ x + 1 := by
  unfold orOne; split <;> omega

/-- Packing then unpacking a key is the identity on in-range keys with an
odd version. -/
theorem KeyData.fromFfi_asFfi (k : KeyData) (hidx : k.idx < 2 ^ 32)
    (hver : k.version < 2 ^ 32) (hodd : k.version % 2 = 1) :
    KeyData.fromFfi k.asFfi = k := by
  unfold KeyData.fromFfi KeyData.asFfi
  have hmod : (k.version * 2 ^ 32 + k.idx) % 2 ^ 32 = k.idx := by
    rw [Nat.mul_comm, Nat.mul_add_mod, Nat.mod_eq_of_lt hidx]
  have hdiv : (k.version * 2 ^ 32 + k.idx) / 2 ^ 32 = k.version := by
    rw [Nat.mul_comm, Nat.mul_add_div (by norm_num), Nat.div_eq_of_lt hidx,
      Nat.add_zero]
  rw [hmod, hdiv, Nat.mod_eq_of_lt hver]
  have : orOne k.version = k.version := by unfold orOne; simp [hodd]
  rw [this]

/-- Looking a freshly inserted value up through the FFI round trip (as
`detach`/`read_into_buf` do with a token `attach` returned) finds it. -/
theorem SlotMap.get_insert_fromFfi {α : Type} (m : SlotMap α) (v : α)
    (hwf : m.WF) :
    (m.insert v).2.get (KeyData.fromFfi (m.insert v).1.asFfi) = some v := by
  obtain ⟨hlen, hver⟩ := hwf
  unfold SlotMap.insert
  cases hfh : m.slots.get? m.freeHead with
  | some s =>
    have hmem : s ∈ m.slots := List.get?_mem hfh
    have hfhlt : m.freeHead < m.slots.length := by
      by_contra hge
      rw [List.get?_eq_none.mpr (by omega)] at hfh
      exact Option.noConfusion hfh
    have hv : s.version < 2 ^ 32 - 1 := hver s hmem
    simp only
    rw [KeyData.fromFfi_asFfi ⟨m.freeHead, orOne s.version⟩
      (by show m.freeHead < 2 ^ 32; omega)
      (by show orOne s.version < 2 ^ 32; have := orOne_le s.version; omega)
      (orOne_odd _)]
    unfold SlotMap.get
    simp only
    rw [List.get?_set_eq_of_lt _ (by simpa using hfhlt)]
    simp
  | none =>
    simp only
    rw [KeyData.fromFfi_asFfi ⟨m.slots.length, 1⟩
      (by show m.slots.length < 2 ^ 32; omega) (by norm_num) rfl]
    unfold SlotMap.get
    simp only
    rw [List.get?_concat_length]
    simp

/-! ## Claim theorems -/

/-- Claim C4 — `set_game_time` accepts `0.0` and `-0.0`, forwarding a zero
duration to the timer adapter (the `setGameTime 0` trace event), and
traps the guest on NaN, `+∞`, `-∞` and every strictly negative seconds
value; in the trapping cases the binding fails before the adapter is
invoked, so no trace event is produced. -/
theorem set_game_time_boundary (ctx : Context) (m : ℚ) (hm : 0 < m) :
    setGameTime ctx (.finite false 0) =
      .ok { ctx with timerEvents := ctx.timerEvents ++ [.setGameTime 0] } ∧
    setGameTime ctx (.finite true 0) =
      .ok { ctx with timerEvents := ctx.timerEvents ++ [.setGameTime 0] } ∧
    setGameTime ctx .nan = .error badGameTimeMsg ∧
    setGameTime ctx (.inf false) = .error badGameTimeMsg ∧
    setGameTime ctx (.inf true) = .error badGameTimeMsg ∧
    setGameTime ctx (.finite true m) = .error badGameTimeMsg := by
  refine ⟨?_, ?_, rfl, rfl, rfl, ?_⟩
  · norm_num [setGameTime, durationFromSecsF64, durationMaxSecs]
  · norm_num [setGameTime, durationFromSecsF64, durationMaxSecs]
  · simp [setGameTime, durationFromSecsF64, hm]

/-- Witness for `set_game_time_boundary` at `ctx = initialContext`,
`m = 1`. -/
theorem set_game_time_boundary_witness :
    (0 : ℚ) < 1 ∧
    (setGameTime initialContext (.finite false 0) =
        .ok { initialContext with
                timerEvents := initialContext.timerEvents ++ [.setGameTime 0] } ∧
      setGameTime initialContext (.finite true 0) =
        .ok { initialContext with
                timerEvents := initialContext.timerEvents ++ [.setGameTime 0] } ∧
      setGameTime initialContext .nan = .error badGameTimeMsg ∧
      setGameTime initialContext (.inf false) = .error badGameTimeMsg ∧
      setGameTime initialContext (.inf true) = .error badGameTimeMsg ∧
      setGameTime initialContext (.finite true 1) = .error badGameTimeMsg) :=
  ⟨by decide, set_game_time_boundary initialContext 1 (by decide)⟩

/-- Claim C5 — the `set_tick_rate` binding does **not** trap on non-finite
or non-positive rates: it calls `Duration::from_secs_f64(rate.recip())`
bare, so `0.0`, NaN and `-1.0` make `from_secs_f64` panic (`none`), a
panic that escapes the host function and kills the runtime thread rather
than ending the step with a guest trap.  A positive finite rate does set
the tick rate to its reciprocal. -/
theorem set_tick_rate_panics :
    setTickRate initialContext (.finite false 0) = none ∧
    setTickRate initialContext .nan = none ∧
    setTickRate initialContext (.finite true 1) = none ∧
    setTickRate initialContext (.finite false 4) =
      some { initialContext with tickRate := 1 / 4 } := by
  refine ⟨rfl, rfl, ?_, ?_⟩ <;>
    norm_num [setTickRate, F64.recip, durationFromSecsF64, durationMaxSecs]

/-- Claim C6, counterexample — immediately after a successful
`Runtime::new` the tick rate is 1/120 s, not 1/60 s as claimed. -/
theorem default_tick_rate_not_sixty :
    (RuntimeNew modNoConfigure 0).map (fun rt => rt.ctx.tickRate) =
      some (1 / 120) ∧
    (1 / 120 : ℚ) ≠ 1 / 60 :=
  ⟨rfl, by norm_num⟩

/-- Claim C6, amended — immediately after `Runtime::new` succeeds and
before any guest call, the tick rate of the context is 1/120 of a second. -/
theorem default_tick_rate (m : ModuleDesc) (now : ℚ)
    (h : m.instantiates = true) :
    (RuntimeNew m now).map (fun rt => rt.ctx.tickRate) = some (1 / 120) := by
  simp [RuntimeNew, h, initialContext]

/-- Witness for `default_tick_rate` at `modNoConfigure`, time 0. -/
theorem default_tick_rate_witness :
    modNoConfigure.instantiates = true ∧
    (RuntimeNew modNoConfigure 0).map (fun rt => rt.ctx.tickRate) =
      some (1 / 120) :=
  ⟨rfl, default_tick_rate modNoConfigure 0 rfl⟩

/-- Claim C2, counterexample — a module that instantiates but exports no
`configure` is still loaded successfully: `Runtime::new` returns `Ok`,
so the failure does not happen at instantiation time. -/
theorem runtime_new_without_configure_loads :
    (RuntimeNew modNoConfigure 0).isSome = true := rfl

/-- Claim C2, amended — for a module that instantiates but exports no
`configure`, `Runtime::new` succeeds, and the missing export surfaces
when `step()` is first called, as an error. -/
theorem configure_missing_fails_at_first_step (m : ModuleDesc) (now : ℚ)
    (hinst : m.instantiates = true) (hconf : m.configureFn = none) :
    ∃ rt, RuntimeNew m now = some rt ∧
      rt.step = .error configureMissingMsg := by
  refine ⟨{ ctx := initialContext, isConfigured := false,
            configureFn := m.configureFn, updateFn := m.updateFn,
            prevTime := now }, ?_, ?_⟩
  · simp [RuntimeNew, hinst]
  · simp [ScriptRuntime.step, hconf]

/-- Witness for `configure_missing_fails_at_first_step` at
`modNoConfigure`, time 0. -/
theorem configure_missing_fails_at_first_step_witness :
    modNoConfigure.instantiates = true ∧
    modNoConfigure.configureFn = none ∧
    ∃ rt, RuntimeNew modNoConfigure 0 = some rt ∧
      rt.step = .error configureMissingMsg :=
  ⟨rfl, rfl, configure_missing_fails_at_first_step modNoConfigure 0 rfl rfl⟩

/-- Claim C8 — `sleep` blocks for `max 0 (tick_rate − elapsed)` (so it does
not sleep at all when the elapsed time since the last reference point is
at least the tick rate) and afterwards records the then-current instant
(`now` plus the slept duration) as the new reference time. -/
theorem sleep_blocks_remainder (rt : ScriptRuntime) (now : ℚ) :
    (rt.sleep now).1 = max 0 (rt.ctx.tickRate - (now - rt.prevTime)) ∧
    (rt.ctx.tickRate ≤ now - rt.prevTime → (rt.sleep now).1 = 0) ∧
    ((rt.sleep now).2).prevTime = now + (rt.sleep now).1 := by
  refine ⟨?_, ?_, ?_⟩
  · show (if now - rt.prevTime < rt.ctx.tickRate then rt.ctx.tickRate - (now - rt.prevTime) else 0) = _
    rcases lt_or_le (now - rt.prevTime) rt.ctx.tickRate with h | h
    · rw [if_pos h, max_eq_right (by linarith)]
    · rw [if_neg (not_lt.mpr h), max_eq_left (by linarith)]
  · intro h
    show (if now - rt.prevTime < rt.ctx.tickRate then rt.ctx.tickRate - (now - rt.prevTime) else 0) = 0
    rw [if_neg (not_lt.mpr h)]
  · rfl

/-- Witness for `sleep_blocks_remainder` at `rtNoConfigure`, instant 1. -/
theorem sleep_blocks_remainder_witness :
    (rtNoConfigure.sleep 1).1 =
      max 0 (rtNoConfigure.ctx.tickRate - (1 - rtNoConfigure.prevTime)) ∧
    (rtNoConfigure.ctx.tickRate ≤ 1 - rtNoConfigure.prevTime →
      (rtNoConfigure.sleep 1).1 = 0) ∧
    ((rtNoConfigure.sleep 1).2).prevTime = 1 + (rtNoConfigure.sleep 1).1 :=
  sleep_blocks_remainder rtNoConfigure 1

/-- Claim C9 — when `step()` errors in the running phase, the controller
logs `Unloaded due to failure`, drops the runtime and returns to idle;
from idle, a later `LoadScript` whose runtime construction succeeds gets
an `Ok` reply and the fresh runtime, exactly as if no module had ever
been loaded. -/
theorem step_error_unloads_then_reload_succeeds (rt : ScriptRuntime)
    (e : String) (now : ℚ) (m : ModuleDesc) (rt2 : ScriptRuntime) (now2 : ℚ)
    (hstep : rt.step = .error e) (hnew : RuntimeNew m now2 = some rt2) :
    runningStep rt none now = (.idle, [.logUnloadFailure e]) ∧
    idleStep (.loadScript m) now2 =
      (.running rt2, [.replyLoadOk, .logLoaded]) := by
  constructor
  · simp [runningStep, stepAndSleep, hstep]
  · simp [idleStep, hnew]

/-- Witness for `step_error_unloads_then_reload_succeeds`: a runtime
without `configure` faults at its first step, and `modGood` then loads. -/
theorem step_error_unloads_then_reload_succeeds_witness :
    rtNoConfigure.step = .error configureMissingMsg ∧
    RuntimeNew modGood 0 = some rtGood ∧
    runningStep rtNoConfigure none 0 =
      (.idle, [.logUnloadFailure configureMissingMsg]) ∧
    idleStep (.loadScript modGood) 0 =
      (.running rtGood, [.replyLoadOk, .logLoaded]) :=
  ⟨rfl, rfl,
    (step_error_unloads_then_reload_succeeds rtNoConfigure configureMissingMsg
      0 modGood rtGood 0 rfl rfl).1,
    (step_error_unloads_then_reload_succeeds rtNoConfigure configureMissingMsg
      0 modGood rtGood 0 rfl rfl).2⟩

/-- Claim C10 — a `LoadScript` polled while running whose runtime
construction fails replies `Err(LoadFailed)`, and the iteration proceeds
exactly as one with no request: the current runtime stays loaded and is
stepped unchanged (the only extra outputs are the failure reply and the
unconditional `Reloaded script` log line). -/
theorem failed_reload_keeps_current_runtime (rt : ScriptRuntime)
    (m : ModuleDesc) (now : ℚ) (hnew : RuntimeNew m now = none) :
    runningStep rt (some (.loadScript m)) now =
      ((runningStep rt none now).1,
        .replyLoadFailed :: .logReloaded :: (runningStep rt none now).2) := by
  simp [runningStep, hnew]

/-- Witness for `failed_reload_keeps_current_runtime` at `modBad` over a
running `rtGood`. -/
theorem failed_reload_keeps_current_runtime_witness :
    RuntimeNew modBad 0 = none ∧
    runningStep rtGood (some (.loadScript modBad)) 0 =
      ((runningStep rtGood none 0).1,
        .replyLoadFailed :: .logReloaded :: (runningStep rtGood none 0).2) :=
  ⟨rfl, failed_reload_keeps_current_runtime rtGood modBad 0 rfl⟩

/-- Claim C3, counterexample — `attach` with no matching process returns
`0x1_FFFF_FFFF` (the FFI value of the slotmap null key, named
`INVALID_PROCESS_HANDLE` by `aslib`), which is not the all-zero token the
claim names. -/
theorem attach_no_match_token_not_zero :
    (attach some initialContext "x" []).1 = 0x1FFFFFFFF ∧
    (0x1FFFFFFFF : Nat) ≠ 0 :=
  ⟨by decide, by decide⟩

/-- Claim C3, amended — whenever no entry of the (refreshed) process table
matches the requested name — in particular always for an empty table —
`attach` leaves the registry untouched and returns the null token, whose
value is `0x1_FFFF_FFFF`, the reserved "no process attached" value. -/
theorem attach_no_match_returns_null (pidToHandle : Nat → Option Nat)
    (ctx : Context) (name : String) (procs : List ProcInfo)
    (h : procs.filter (fun p => processNameMatches p name) = []) :
    attach pidToHandle ctx name procs = (KeyData.null.asFfi, ctx) ∧
    KeyData.null.asFfi = 0x1FFFFFFFF := by
  constructor
  · simp [attach, h]
  · decide

/-- Witness for `attach_no_match_returns_null` at the empty process table
and the empty name. -/
theorem attach_no_match_returns_null_witness :
    ([] : List ProcInfo).filter (fun p => processNameMatches p "") = [] ∧
    (attach some initialContext "" [] = (KeyData.null.asFfi, initialContext) ∧
      KeyData.null.asFfi = 0x1FFFFFFFF) :=
  ⟨rfl, attach_no_match_returns_null some initialContext "" [] rfl⟩

/-- Claim C1 — with a valid token (`0x1_0000_0001`, attached to handle 7)
and an in-bounds buffer (`ptr 0`, `len 4` in an 8-byte memory), a failed
target-process read makes the live `read_into_buf` binding of
`runtime.rs` **trap** the guest (`map_err(trap_from_err)`) — it returns
no status word at all (its wasm signature has no result) — whereas
`Environment::read_into_buf` of `environment.rs` (and the ABI declared by
`aslib`, `read_into_buf → bool`) returns the status word 0 without a
trap, as the claim demands. -/
theorem read_failure_traps_not_status_zero :
    readIntoBuf failingRead attachedCtx mem8 0x100000001 0 0 4 =
      .error readFailedMsg ∧
    env1.readIntoBuf failingRead 0x100000001 0 0 4 = .ok (0, env1) :=
  ⟨rfl, rfl⟩

/-- Lemma: `Process::with_name` (Windows platform layer) never turns a chosen
candidate back into none, and never lowers the chosen creation time:
one fold step keeps a `some` accumulator `some`, with a creation time at
least as recent. -/
theorem withNameUpdate_mono (query : String) (q t : Nat) (e : WinProcEntry) :
    ∃ q2 t2, withNameUpdate query (some (q, t)) e = some (q2, t2) ∧ t ≤ t2 := by
  unfold withNameUpdate
  by_cases hn : e.name = query
  · simp only [hn, if_pos rfl]
    cases hc : e.creation with
    | some u =>
      by_cases hlt : t < u
      · exact ⟨e.pid, u, by simp [hlt], by omega⟩
      · exact ⟨q, t, by simp [hlt], le_refl t⟩
    | none => exact ⟨q, t, rfl, le_refl t⟩
  · exact ⟨q, t, by simp [hn], le_refl t⟩

/-- Folding `withNameUpdate` from a `some` accumulator ends `some`, with
a creation time at least that of the accumulator. -/
theorem withNameFold_mono (query : String) (entries : List WinProcEntry) :
    ∀ q t, ∃ q2 t2,
      entries.foldl (withNameUpdate query) (some (q, t)) = some (q2, t2) ∧
      t ≤ t2 := by
  induction entries with
  | nil => exact fun q t => ⟨q, t, rfl, le_refl t⟩
  | cons e rest ih =>
    intro q t
    obtain ⟨q1, t1, he, ht1⟩ := withNameUpdate_mono query q t e
    obtain ⟨q2, t2, hrest, ht2⟩ := ih q1 t1
    exact ⟨q2, t2, by simpa [he] using hrest, le_trans ht1 ht2⟩

/-- One fold step over the matching entry `e` (creation time `t`) yields
a `some` accumulator whose creation time is at least `t`, from any
starting accumulator. -/
theorem withNameUpdate_hits (query : String) (e : WinProcEntry) (t : Nat)
    (hname : e.name = query) (hc : e.creation = some t)
    (acc : Option (Nat × Nat)) :
    ∃ q2 t2, withNameUpdate query acc e = some (q2, t2) ∧ t ≤ t2 := by
  unfold withNameUpdate
  cases acc with
  | none => exact ⟨e.pid, t, by simp [hname, hc], le_refl t⟩
  | some qt =>
    obtain ⟨q, b⟩ := qt
    by_cases hlt : b < t
    · exact ⟨e.pid, t, by simp [hname, hc, hlt], le_refl t⟩
    · exact ⟨q, b, by simp [hname, hc, hlt], by omega⟩

/-- The selection loop of `Process::with_name`: if some entry matches the
name and has a creation time, the loop chooses a process whose creation
time is at least as recent as that of the entry — the most-recent-start-time
policy the specification asks for lives here (and only here). -/
theorem withNameBest_most_recent (query : String) (e : WinProcEntry)
    (t : Nat) (hname : e.name = query) (hc : e.creation = some t) :
    ∀ (entries : List WinProcEntry), e ∈ entries →
      ∃ p best, withNameBest query entries = some (p, best) ∧ t ≤ best := by
  have main : ∀ (entries : List WinProcEntry), e ∈ entries →
      ∀ acc, ∃ p best,
        entries.foldl (withNameUpdate query) acc = some (p, best) ∧
        t ≤ best := by
    intro entries
    induction entries with
    | nil => intro hmem; cases hmem
    | cons hd rest ih =>
      intro hmem acc
      rcases List.mem_cons.mp hmem with rfl | hmem2
      · obtain ⟨q2, t2, hstep, hle⟩ := withNameUpdate_hits query e t hname hc acc
        obtain ⟨p, best, hfold, hle2⟩ := withNameFold_mono query rest q2 t2
        exact ⟨p, best, by simpa [hstep] using hfold, le_trans hle hle2⟩
      · simp only [List.foldl_cons]
        exact ih hmem2 _
  intro entries hmem
  exact main entries hmem none

/-- Claim C7, counterexample — with two running processes named `game`,
where the first enumerated (`pid 1`) started at time 100 and the second
(`pid 2`) at time 50, `attach` selects `pid 2`: the token it returns
resolves to handle 2, although `pid 1` has the more recent start time.
The live binding takes `Vec::pop()` of the filtered enumeration — the
*last* match — and never consults creation times. -/
theorem attach_picks_last_not_most_recent :
    (attach some initialContext "game" [procNewer, procOlder]).2.processes.get
        (KeyData.fromFfi
          (attach some initialContext "game" [procNewer, procOlder]).1) =
      some procOlder.pid ∧
    procOlder.startTime < procNewer.startTime :=
  ⟨by decide, by decide⟩

/-- Claim C7, amended — when at least one running process matches, the
`attach` binding of `runtime.rs` selects the **last matching process in
the refreshed enumeration order**, irrespective of creation times: the
returned token resolves to the handle of that process.  (The
most-recent-start-time policy exists only in `Process::with_name` of the
platform layer, `withNameBest_most_recent` above, which the live binding
does not use.) -/
theorem attach_selects_last_match (pidToHandle : Nat → Option Nat)
    (ctx : Context) (name : String) (procs : List ProcInfo)
    (p : ProcInfo) (h : Nat) (hwf : ctx.processes.WF)
    (hlast : (procs.filter (fun q => processNameMatches q name)).getLast? =
      some p)
    (hhandle : pidToHandle p.pid = some h) :
    (attach pidToHandle ctx name procs).2.processes.get
      (KeyData.fromFfi (attach pidToHandle ctx name procs).1) = some h := by
  unfold attach
  simp only [hlast, hhandle]
  exact SlotMap.get_insert_fromFfi ctx.processes h hwf

/-- Witness for `attach_selects_last_match` on the two `game` processes:
the last enumerated match is `procOlder` (pid 2). -/
theorem attach_selects_last_match_witness :
    (SlotMap.WF initialContext.processes) ∧
    ([procNewer, procOlder].filter
        (fun q => processNameMatches q "game")).getLast? = some procOlder ∧
    (attach some initialContext "game" [procNewer, procOlder]).2.processes.get
      (KeyData.fromFfi
        (attach some initialContext "game" [procNewer, procOlder]).1) =
      some 2 :=
  ⟨⟨by decide, by decide⟩, by decide,
    attach_selects_last_match some initialContext "game" [procNewer, procOlder]
      procOlder 2 ⟨by decide, by decide⟩ (by decide) rfl⟩

end LiveSplit
